import Mathlib

/-!
Verification development for the `hyper` C API (src/hyper-capi/include/hyper.h).

The repository ships only the public header: enumerations, reserved sentinel
constants and documented contracts. Where a claim is decided by the header
itself (constants, enum members) the definitions below transcribe the header.
Where a claim is about runtime behaviour whose implementation is not in the
repository, the behaviour is modelled from the spec; every such definition
carries a doc comment starting with `Modelled from the spec:`.
-/

set_option autoImplicit false
set_option linter.unusedVariables false

/-! ### Source-level constants and enumerations (hyper.h) -/

/-- Transcribed from hyper.h line 99: `#define HYPER_IO_PENDING 0xFFFFFFFF`,
the reserved return code of a transport read/write callback meaning that no
bytes can be transferred right now. -/
def HYPER_IO_PENDING : Nat := 0xFFFFFFFF

/-- Transcribed from hyper.h line 100: `#define HYPER_IO_ERROR 0xFFFFFFFE`,
the reserved return code of a transport read/write callback meaning an
irrecoverable transport failure. -/
def HYPER_IO_ERROR : Nat := 0xFFFFFFFE

/-- Transcribed from hyper.h lines 248-253: the `hyper_task_return_type`
enumeration, exactly the four members declared there. -/
inductive hyper_task_return_type
  | HYPER_TASK_BG
  | HYPER_TASK_ERROR
  | HYPER_TASK_CLIENTCONN
  | HYPER_TASK_RESPONSE
deriving DecidableEq

/-- The C identifier of each `hyper_task_return_type` member, as spelled in
hyper.h lines 248-253. -/
def taskReturnTypeName : hyper_task_return_type → String
  | .HYPER_TASK_BG => "HYPER_TASK_BG"
  | .HYPER_TASK_ERROR => "HYPER_TASK_ERROR"
  | .HYPER_TASK_CLIENTCONN => "HYPER_TASK_CLIENTCONN"
  | .HYPER_TASK_RESPONSE => "HYPER_TASK_RESPONSE"

/-- Transcribed from hyper.h lines 48-51: the `hyper_iter_step` enumeration
returned by a headers-iteration callback. -/
inductive hyper_iter_step
  | HYPER_IT_CONTINUE
  | HYPER_IT_BREAK
deriving DecidableEq

/-- Classification of a transport callback return code under the contract
documented at hyper.h lines 102-127: a code is the PENDING sentinel, the
ERROR sentinel, or a bytes-transferred count. -/
inductive IoResult
  | bytes (n : Nat)
  | pending
  | ioError
deriving DecidableEq

/-- Decode a transport callback return code per the contract documented at
hyper.h lines 102-127: the two reserved sentinels first, any other value is
a bytes-transferred count. -/
def decodeIoResult (n : Nat) : IoResult :=
  if n = HYPER_IO_PENDING then .pending
  else if n = HYPER_IO_ERROR then .ioError
  else .bytes n

/-! ### Headers model -/

/-- A byte string, the payload of a `hyper_str` (length-prefixed bytes, not a
null-terminated C string). -/
abbrev HStr := List Nat

/-- Modelled from the spec: the Headers container (implementation not in the
header) is an ordered, duplicate-permitting multimap kept in insertion
order, here a list of name-value pairs. -/
abbrev MHeaders := List (HStr × HStr)

/-- All values stored under a name, in order of appearance. -/
def valuesOf : MHeaders → HStr → List HStr
  | [], _ => []
  | (n, v) :: rest, name => if n = name then v :: valuesOf rest name else valuesOf rest name

/-- Entries whose name differs from the given one, in order. -/
def removeName : MHeaders → HStr → MHeaders
  | [], _ => []
  | (n, v) :: rest, name =>
    if n = name then removeName rest name else (n, v) :: removeName rest name

/-- Modelled from the spec: `hyper_headers_set` (implementation not in the
header) replaces all existing values under the name with the single new
value (hyper.h lines 174-177). -/
def hyper_headers_set (h : MHeaders) (name value : HStr) : MHeaders :=
  removeName h name ++ [(name, value)]

/-- Modelled from the spec: `hyper_headers_add` (implementation not in the
header) appends the value without removing prior values under the same name
(hyper.h lines 179-183). -/
def hyper_headers_add (h : MHeaders) (name value : HStr) : MHeaders :=
  h ++ [(name, value)]

/-- Modelled from the spec: `hyper_headers_iter` (implementation not in the
header) passes each name-value pair to the callback in order, stopping early
when the callback returns `HYPER_IT_BREAK` (hyper.h lines 185-195). The
C `userdata` pointer mutated by the callback is modelled by threading a
state of type `σ`. -/
def hyper_headers_iter {σ : Type} : MHeaders → (σ → HStr → HStr → σ × hyper_iter_step) → σ → σ
  | [], _, ud => ud
  | (n, v) :: rest, f, ud =>
    match f ud n v with
    | (ud2, .HYPER_IT_CONTINUE) => hyper_headers_iter rest f ud2
    | (ud2, .HYPER_IT_BREAK) => ud2

/-- Iterating with a callback that collects every pair and always continues:
the observable visit order of `hyper_headers_iter`. -/
def iterCollect (h : MHeaders) : MHeaders :=
  hyper_headers_iter h (fun acc n v => (acc ++ [(n, v)], .HYPER_IT_CONTINUE)) []

/-! ### Task / error / message model -/

/-- Modelled from the spec: the error kinds an asynchronous operation can fail
with (sequencing error on a second in-flight send, connection-closed,
transport ERROR sentinel, protocol violation) plus the not-ready /
already-taken error signalled by taking a task value prematurely. -/
inductive MErr
  | sequencing
  | connClosed
  | transportErr
  | protocolErr
  | notReadyOrTaken
deriving DecidableEq

/-- Modelled from the spec: a Body is a streamable payload, its remaining
chunks in order; once drained, further polls keep yielding the terminal
empty result. -/
structure MBody where
  chunks : List HStr
deriving DecidableEq

/-- Modelled from the spec: a Response carries a status (100-599), Headers
and an optional Body handle (an identifier into the store of bodies). -/
structure MResponse where
  status : Nat
  headers : MHeaders
  bodyId : Option Nat
deriving DecidableEq

/-- Modelled from the spec: a Request carries method, target URI, Headers
and an optional Body handle. -/
structure MRequest where
  method : HStr
  uri : HStr
  headers : MHeaders
  bodyId : Option Nat
deriving DecidableEq

/-- Modelled from the spec: the phases of the ClientConnection state machine
after a successful handshake (Ready, Sending, Closed). -/
inductive ConnPhase
  | ready
  | sending
  | closed
deriving DecidableEq

/-- Modelled from the spec: the outcome the byte stream ultimately delivers
for the next request/response exchange - either a parsed Response or a
fatal error (transport ERROR sentinel, protocol violation, premature
close). -/
inductive MReply
  | ok (r : MResponse)
  | fail (e : MErr)
deriving DecidableEq

/-- Modelled from the spec: a ClientConnection is one HTTP/1.1 session:
its current phase, the optional in-flight request, and the outcome its
transport will deliver for the next exchange. -/
structure MClientConn where
  phase : ConnPhase
  inflight : Option MRequest
  reply : MReply
deriving DecidableEq

/-- Modelled from the spec: the typed value a completed Task carries, one
variant per result-type tag of the data model (Background, Error,
ClientConn, Response, BodyChunk). An Error value carries only the error
kind, never a partial ClientConn, Response or chunk. -/
inductive MValue
  | vBackground
  | vError (e : MErr)
  | vClientConn (c : MClientConn)
  | vResponse (r : MResponse)
  | vBodyChunk (b : Option HStr)
deriving DecidableEq

/-- Modelled from the spec: the result-type tag set of the data model,
`{Background, Error, ClientConn, Response, BodyChunk}`. -/
inductive SpecTaskTag
  | Background
  | Error
  | ClientConn
  | Response
  | BodyChunk
deriving DecidableEq

/-- Modelled from the spec: a Task is a unit of deferred work: its identity,
how many further poll attempts still return pending before it completes,
the value it completes with, whether it has completed, and whether its
value has been taken. -/
structure MTask where
  tid : Nat
  pollsLeft : Nat
  value : MValue
  completed : Bool
  taken : Bool
deriving DecidableEq

/-- Modelled from the spec: `hyper_task_type` reports the result-type tag of
a task, determined by the kind of value it yields. -/
def MTask.tag (t : MTask) : SpecTaskTag :=
  match t.value with
  | .vBackground => .Background
  | .vError _ => .Error
  | .vClientConn _ => .ClientConn
  | .vResponse _ => .Response
  | .vBodyChunk _ => .BodyChunk

/-- Result of taking a task value: the value together with the task marked
taken, or a signalled error. -/
inductive TakeResult
  | ok (v : MValue) (t : MTask)
  | err (e : MErr)
deriving DecidableEq

/-- Modelled from the spec: `hyper_task_value` (implementation not in the
header) returns the completed result exactly once; on a still-pending task
or a task whose value was already taken it signals a not-ready /
already-taken error and returns no data. -/
def hyper_task_value (t : MTask) : TakeResult :=
  if t.completed = true ∧ t.taken = false then .ok t.value { t with taken := true }
  else .err .notReadyOrTaken

/-! ### Executor model -/

/-- Modelled from the spec: the Executor is a cooperative single-queue
scheduler: the tasks it owns (in push order) and the identities of tasks
currently marked ready to repoll. -/
structure MExecutor where
  tasks : List MTask
  readyIds : List Nat
deriving DecidableEq

/-- Modelled from the spec: a Waker is a one-shot handle into the readiness
table, keyed by the identity of the task it wakes. -/
structure MWaker where
  tid : Nat
deriving DecidableEq

/-- First task with the given identity, if any. -/
def findTask (ts : List MTask) (id : Nat) : Option MTask :=
  ts.find? (fun t => t.tid = id)

/-- Tasks other than the given identity, in order. -/
def removeTask (ts : List MTask) (id : Nat) : List MTask :=
  ts.filter (fun t => t.tid ≠ id)

/-- Replace the stored task of the same identity. -/
def updateTask (ts : List MTask) (t : MTask) : List MTask :=
  ts.map (fun u => if u.tid = t.tid then t else u)

/-- Modelled from the spec: `hyper_executor_push` (implementation not in the
header) transfers ownership of the task into the executor and marks it
ready for its first poll. -/
def hyper_executor_push (e : MExecutor) (t : MTask) : MExecutor :=
  { tasks := e.tasks ++ [t], readyIds := e.readyIds ++ [t.tid] }

/-- Modelled from the spec: `hyper_waker_wake` (implementation not in the
header) marks the originating task of the waker as ready to repoll. A wake for a
task that no longer exists or has already completed is a no-op; waking an
already-ready task is idempotent. -/
def hyper_waker_wake (e : MExecutor) (w : MWaker) : MExecutor :=
  match findTask e.tasks w.tid with
  | none => e
  | some t =>
    if t.completed then e
    else if w.tid ∈ e.readyIds then e
    else { e with readyIds := e.readyIds ++ [w.tid] }

/-- Modelled from the spec: one poll attempt on a task: an uncompleted task
completes when no pending polls remain, otherwise it consumes one pending
poll and stays suspended (it re-registers a waker). -/
def pollTask (t : MTask) : MTask :=
  if t.completed then t
  else if t.pollsLeft = 0 then { t with completed := true }
  else { t with pollsLeft := t.pollsLeft - 1 }

/-- Modelled from the spec: the poll of the executor walks the ready identities in
order, advances each task once, returns the first that reaches completion
(removed from the owned tasks; identities not yet attempted stay ready),
and unmarks tasks that stay pending. -/
def pollLoop : List Nat → List MTask → Option MTask × List MTask × List Nat
  | [], ts => (none, ts, [])
  | id :: rest, ts =>
    match findTask ts id with
    | none => pollLoop rest ts
    | some t =>
      let t2 := pollTask t
      if t2.completed then (some t2, removeTask ts id, rest)
      else pollLoop rest (updateTask ts t2)

/-- Modelled from the spec: `hyper_executor_poll` (implementation not in the
header) attempts to advance every task currently marked ready and returns
the first completed task, or the none-ready sentinel (`NULL`, here `none`)
when nothing is ready or everything attempted stays pending. It never
blocks: it is a total function of the executor state. -/
def hyper_executor_poll (e : MExecutor) : Option MTask × MExecutor :=
  match pollLoop e.readyIds e.tasks with
  | (res, ts, ready) => (res, { tasks := ts, readyIds := ready })

/-- Well-formedness of an executor: task identities are unique, ready
identities are unique, and every ready identity names an owned task. -/
def execWF (e : MExecutor) : Prop :=
  (e.tasks.map MTask.tid).Nodup ∧ e.readyIds.Nodup ∧
    ∀ id ∈ e.readyIds, ∃ t ∈ e.tasks, t.tid = id

/-! ### Body, connection and handshake model -/

/-- Modelled from the spec: the value a body-next task eventually yields and
the body state after it: the next chunk while one remains, and the terminal
empty result (`NULL`) forever once drained. -/
def bodyNextValue (b : MBody) : Option HStr × MBody :=
  match b.chunks with
  | [] => (none, b)
  | c :: rest => (some c, ⟨rest⟩)

/-- The body state left behind by one body-next step. -/
def bodyNextState (b : MBody) : MBody :=
  (bodyNextValue b).2

/-- Modelled from the spec: `hyper_body_next` (implementation not in the
header) returns a task, pending at return, that will yield the next chunk
of the body or the terminal empty value; the fresh task identity is a
parameter. -/
def hyper_body_next (b : MBody) (tid : Nat) : MTask × MBody :=
  match bodyNextValue b with
  | (v, b2) =>
    ({ tid := tid, pollsLeft := 0, value := .vBodyChunk v,
       completed := false, taken := false }, b2)

/-- Modelled from the spec: `hyper_clientconn_send` (implementation not in
the header). In `Ready` it accepts the request, moves to `Sending`, and
returns a pending task that yields the Response (or the fatal
error of the transport). While a send is in flight (`Sending`) it is rejected with a
sequencing error and the connection is left unchanged; on a `Closed`
connection it fails fast with a connection-closed error. Each rejection is
still delivered as a task completing with an Error value, never a
synchronous failure. -/
def hyper_clientconn_send (c : MClientConn) (req : MRequest) (tid : Nat) :
    MTask × MClientConn :=
  match c.phase with
  | .ready =>
    ({ tid := tid, pollsLeft := 1,
       value := match c.reply with
         | .ok r => .vResponse r
         | .fail e => .vError e,
       completed := false, taken := false },
     { c with phase := .sending, inflight := some req })
  | .sending =>
    ({ tid := tid, pollsLeft := 0, value := .vError .sequencing,
       completed := false, taken := false }, c)
  | .closed =>
    ({ tid := tid, pollsLeft := 0, value := .vError .connClosed,
       completed := false, taken := false }, c)

/-- Modelled from the spec: the caller-supplied transport, summarized by
whether its callbacks report the ERROR sentinel during the handshake, and
by the outcome the byte stream ultimately delivers for the first
exchange. -/
structure MIoTransport where
  hsErr : Bool
  reply : MReply
deriving DecidableEq

/-- Modelled from the spec: the clientconn options, summarized by whether a
background-task executor was attached. -/
structure MOptions where
  hasExec : Bool
deriving DecidableEq

/-- Modelled from the spec: `hyper_clientconn_handshake` (implementation not
in the header) consumes the transport and options and returns a task,
pending at return, that yields a ClientConnection in `Ready`, or an Error
value when the transport fails during the handshake. -/
def hyper_clientconn_handshake (tr : MIoTransport) (opts : MOptions) (tid : Nat) : MTask :=
  { tid := tid, pollsLeft := 1,
    value := if tr.hsErr then .vError .transportErr
             else .vClientConn { phase := .ready, inflight := none, reply := tr.reply },
    completed := false, taken := false }

/-! ### Object store model (response / body ownership) -/

/-- First value stored under a key in an association list. -/
def assocFind {α : Type} : List (Nat × α) → Nat → Option α
  | [], _ => none
  | (k, a) :: rest, key => if k = key then some a else assocFind rest key

/-- Replace the first value stored under a key. -/
def assocUpdate {α : Type} : List (Nat × α) → Nat → α → List (Nat × α)
  | [], _, _ => []
  | (k, a) :: rest, key, b =>
    if k = key then (k, b) :: rest else (k, a) :: assocUpdate rest key b

/-- Remove the first entry stored under a key. -/
def assocErase {α : Type} : List (Nat × α) → Nat → List (Nat × α)
  | [], _ => []
  | (k, a) :: rest, key => if k = key then rest else (k, a) :: assocErase rest key

/-- Modelled from the spec: the store of live objects behind the opaque
handles - responses and bodies, each keyed by an identifier. -/
structure MWorld where
  responses : List (Nat × MResponse)
  bodies : List (Nat × MBody)
deriving DecidableEq

/-- Modelled from the spec: `hyper_response_body` (implementation not in the
header) takes ownership of the body of the response: it returns the body handle
and leaves the response holding none. -/
def hyper_response_body (w : MWorld) (rid : Nat) : Option Nat × MWorld :=
  match assocFind w.responses rid with
  | none => (none, w)
  | some r =>
    (r.bodyId, { w with responses := assocUpdate w.responses rid { r with bodyId := none } })

/-- Modelled from the spec: `hyper_response_free` (implementation not in the
header) destroys the response; a body it still owns is destroyed with it,
while a body whose ownership was already taken is untouched. -/
def hyper_response_free (w : MWorld) (rid : Nat) : MWorld :=
  match assocFind w.responses rid with
  | none => w
  | some r =>
    match r.bodyId with
    | none => { w with responses := assocErase w.responses rid }
    | some bid =>
      { responses := assocErase w.responses rid, bodies := assocErase w.bodies bid }

/-- Modelled from the spec: `hyper_body_next` acting through a body handle in
the store: steps the identified body and records its new state; `none`
outer result means the handle names no live body. -/
def worldBodyNext (w : MWorld) (bid : Nat) : Option (Option HStr) × MWorld :=
  match assocFind w.bodies bid with
  | none => (none, w)
  | some b =>
    match bodyNextValue b with
    | (v, b2) => (some v, { w with bodies := assocUpdate w.bodies bid b2 })

/-- A concrete response used to instantiate the store-model theorems. -/
def exampleResponse : MResponse :=
  { status := 200, headers := [], bodyId := some 4 }

/-- A concrete store (one response owning one two-chunk body) used to
instantiate the store-model theorems. -/
def exampleWorld : MWorld :=
  { responses := [(1, exampleResponse)],
    bodies := [(4, { chunks := [[104], [105]] })] }

/-! ### Supporting lemmas for the headers model -/

theorem valuesOf_append (a b : MHeaders) (name : HStr) :
    valuesOf (a ++ b) name = valuesOf a name ++ valuesOf b name := by
  induction a with
  | nil => simp [valuesOf]
  | cons p rest ih =>
    obtain ⟨n, v⟩ := p
    by_cases hn : n = name <;> simp [valuesOf, hn, ih]

theorem valuesOf_removeName_self (h : MHeaders) (name : HStr) :
    valuesOf (removeName h name) name = [] := by
  induction h with
  | nil => simp [removeName, valuesOf]
  | cons p rest ih =>
    obtain ⟨n, v⟩ := p
    by_cases hn : n = name <;> simp [removeName, valuesOf, hn, ih]

theorem valuesOf_removeName_other (h : MHeaders) (name other : HStr) (hne : other ≠ name) :
    valuesOf (removeName h name) other = valuesOf h other := by
  induction h with
  | nil => simp [removeName]
  | cons p rest ih =>
    obtain ⟨n, v⟩ := p
    by_cases hn : n = name
    · have hne' : name ≠ other := fun hc => hne hc.symm
      simp [removeName, valuesOf, hn, hne', ih]
    · by_cases hv : n = other <;> simp [removeName, valuesOf, hn, hv, hne, ih]

theorem iter_collect_go (h : MHeaders) (acc : MHeaders) :
    hyper_headers_iter h (fun a n v => (a ++ [(n, v)], .HYPER_IT_CONTINUE)) acc = acc ++ h := by
  induction h generalizing acc with
  | nil => simp [hyper_headers_iter]
  | cons p rest ih =>
    obtain ⟨n, v⟩ := p
    simp [hyper_headers_iter, ih]

theorem iterCollect_eq (h : MHeaders) : iterCollect h = h := by
  simpa [iterCollect] using iter_collect_go h []


/-! ### Supporting lemmas for the executor model -/

theorem findTask_some {ts : List MTask} {id : Nat} {t : MTask}
    (h : findTask ts id = some t) : t ∈ ts ∧ t.tid = id := by
  refine ⟨List.mem_of_find?_eq_some h, ?_⟩
  have hp := List.find?_some h
  simpa using hp

theorem pollLoop_some_completed (ids : List Nat) :
    ∀ (ts ts2 : List MTask) (t : MTask) (rdy : List Nat),
      pollLoop ids ts = (some t, ts2, rdy) → t.completed = true := by
  induction ids with
  | nil =>
    intro ts ts2 t rdy h
    simp [pollLoop] at h
  | cons id rest ih =>
    intro ts ts2 t rdy h
    simp only [pollLoop] at h
    cases hf : findTask ts id with
    | none =>
      rw [hf] at h
      exact ih ts ts2 t rdy h
    | some t0 =>
      rw [hf] at h
      by_cases hc : (pollTask t0).completed = true
      · simp only [hc, if_true] at h
        have h1 : some (pollTask t0) = some t := congrArg (fun p => p.1) h
        injection h1 with h1
        rw [← h1]
        exact hc
      · simp only [hc, if_false] at h
        exact ih _ ts2 t rdy h

/-! ### Supporting lemmas for the store model -/

theorem assocFind_update_self {α : Type} (l : List (Nat × α)) (k : Nat) (a b : α)
    (h : assocFind l k = some a) : assocFind (assocUpdate l k b) k = some b := by
  induction l with
  | nil => simp [assocFind] at h
  | cons p rest ih =>
    obtain ⟨k0, a0⟩ := p
    by_cases hk : k0 = k
    · simp [assocFind, assocUpdate, hk]
    · simp only [assocFind, assocUpdate, hk, if_false, if_neg hk] at h ⊢
      exact ih h

theorem worldBodyNext_bodies_congr (w1 w2 : MWorld) (bid : Nat)
    (h : w1.bodies = w2.bodies) :
    (worldBodyNext w1 bid).1 = (worldBodyNext w2 bid).1 ∧
    (worldBodyNext w1 bid).2.bodies = (worldBodyNext w2 bid).2.bodies := by
  cases hf : assocFind w2.bodies bid with
  | none => simp [worldBodyNext, h, hf]
  | some b => simp [worldBodyNext, h, hf]

/-! ### Claim theorems -/

/-- C1: the `hyper_task_return_type` enumeration of hyper.h declares exactly
the four members `HYPER_TASK_BG`, `HYPER_TASK_ERROR`, `HYPER_TASK_CLIENTCONN`
and `HYPER_TASK_RESPONSE`; no member named `HYPER_TASK_BODY_NEXT` (the
BodyChunk tag the claim and the doc comment of `hyper_body_next` refer to)
exists, so no task can ever carry that tag. -/
theorem C1_enum_has_no_bodychunk_member :
    (∀ t : hyper_task_return_type, taskReturnTypeName t ≠ "HYPER_TASK_BODY_NEXT") ∧
    taskReturnTypeName hyper_task_return_type.HYPER_TASK_BG = "HYPER_TASK_BG" ∧
    taskReturnTypeName hyper_task_return_type.HYPER_TASK_ERROR = "HYPER_TASK_ERROR" ∧
    taskReturnTypeName hyper_task_return_type.HYPER_TASK_CLIENTCONN = "HYPER_TASK_CLIENTCONN" ∧
    taskReturnTypeName hyper_task_return_type.HYPER_TASK_RESPONSE = "HYPER_TASK_RESPONSE" := by
  refine ⟨?_, rfl, rfl, rfl, rfl⟩
  intro t
  cases t <;> decide

/-- C8: the reserved transport-callback sentinels are exactly
`PENDING = 0xFFFFFFFF` and `ERROR = 0xFFFFFFFE`; they differ from each other,
and every valid bytes-transferred count (at most the buffer length, for any
buffer shorter than the smaller sentinel) decodes as a byte count, distinct
from both sentinels, so every callback return is unambiguously bytes,
PENDING or ERROR. -/
theorem C8_io_sentinels_unambiguous :
    HYPER_IO_PENDING = 0xFFFFFFFF ∧ HYPER_IO_ERROR = 0xFFFFFFFE ∧
    HYPER_IO_PENDING ≠ HYPER_IO_ERROR ∧
    decodeIoResult HYPER_IO_PENDING = IoResult.pending ∧
    decodeIoResult HYPER_IO_ERROR = IoResult.ioError ∧
    ∀ (bufLen n : Nat), bufLen < HYPER_IO_ERROR → n ≤ bufLen →
      decodeIoResult n = IoResult.bytes n := by
  refine ⟨rfl, rfl, by decide, by decide, by decide, ?_⟩
  intro bufLen n h1 h2
  have hlt : n < HYPER_IO_ERROR := lt_of_le_of_lt h2 h1
  have h3 : n ≠ HYPER_IO_ERROR := Nat.ne_of_lt hlt
  have h4 : n ≠ HYPER_IO_PENDING := by
    intro hc
    rw [hc] at hlt
    exact absurd hlt (by decide)
  simp [decodeIoResult, h3, h4]

/-- C8 witness: a concrete count below a concrete buffer length decodes as a
byte count. -/
theorem C8_io_sentinels_unambiguous_witness :
    (16 : Nat) < HYPER_IO_ERROR ∧ (10 : Nat) ≤ 16 ∧
    decodeIoResult 10 = IoResult.bytes 10 :=
  ⟨by decide, by decide,
   C8_io_sentinels_unambiguous.2.2.2.2.2 16 10 (by decide) (by decide)⟩

/-- C6: `hyper_headers_set` replaces all values under a name with the single
new value and touches no other name, `hyper_headers_add` appends without
removing prior values, and `hyper_headers_iter` visits entries in insertion
order; in particular set then set yields exactly the one later pair, while
add then add yields both pairs in order. -/
theorem C6_headers_set_add_iter_order :
    (∀ (h : MHeaders) (n v : HStr), valuesOf (hyper_headers_set h n v) n = [v]) ∧
    (∀ (h : MHeaders) (n m v : HStr), m ≠ n →
      valuesOf (hyper_headers_set h n v) m = valuesOf h m) ∧
    (∀ (h : MHeaders) (n v : HStr),
      valuesOf (hyper_headers_add h n v) n = valuesOf h n ++ [v]) ∧
    (∀ h : MHeaders, iterCollect h = h) ∧
    iterCollect (hyper_headers_set (hyper_headers_set [] [88] [97]) [88] [98])
      = [([88], [98])] ∧
    iterCollect (hyper_headers_add (hyper_headers_add [] [88] [97]) [88] [98])
      = [([88], [97]), ([88], [98])] := by
  refine ⟨?_, ?_, ?_, iterCollect_eq, by decide, by decide⟩
  · intro h n v
    simp [hyper_headers_set, valuesOf_append, valuesOf_removeName_self, valuesOf]
  · intro h n m v hmn
    have hx := valuesOf_removeName_other h n m hmn
    have hy : valuesOf [(n, v)] m = [] := by
      have hnm : n ≠ m := fun hc => hmn hc.symm
      simp [valuesOf, hnm]
    simp [hyper_headers_set, valuesOf_append, hx, hy]
  · intro h n v
    simp [hyper_headers_add, valuesOf_append, valuesOf]

/-- C6 witness: setting one name leaves the values of a different name
unchanged, at concrete inputs. -/
theorem C6_headers_set_add_iter_order_witness :
    ([89] : HStr) ≠ [88] ∧
    valuesOf (hyper_headers_set [([89], [99])] [88] [97]) [89]
      = valuesOf [([89], [99])] [89] :=
  ⟨by decide,
   C6_headers_set_add_iter_order.2.1 [([89], [99])] [88] [89] [97] (by decide)⟩

/-- C4: `hyper_task_value` returns the completed result exactly once: on a
completed, not-yet-taken task it yields the value and marks the task taken;
a second call on the now-taken task, or any call on a still-pending task,
signals the not-ready / already-taken error and returns no data. -/
theorem C4_take_value_exactly_once :
    (∀ t : MTask, t.completed = true → t.taken = false →
      hyper_task_value t = TakeResult.ok t.value { t with taken := true } ∧
      hyper_task_value { t with taken := true } = TakeResult.err MErr.notReadyOrTaken) ∧
    (∀ t : MTask, t.completed = false →
      hyper_task_value t = TakeResult.err MErr.notReadyOrTaken) := by
  constructor
  · intro t h1 h2
    constructor
    · simp [hyper_task_value, h1, h2]
    · simp [hyper_task_value]
  · intro t h1
    simp [hyper_task_value, h1]

/-- C4 witness: a concrete completed task yields its value once and errors on
the second take. -/
theorem C4_take_value_exactly_once_witness :
    hyper_task_value
        { tid := 1, pollsLeft := 0, value := MValue.vBackground,
          completed := true, taken := false }
      = TakeResult.ok MValue.vBackground
          { tid := 1, pollsLeft := 0, value := MValue.vBackground,
            completed := true, taken := true } ∧
    hyper_task_value
        { tid := 1, pollsLeft := 0, value := MValue.vBackground,
          completed := true, taken := true }
      = TakeResult.err MErr.notReadyOrTaken :=
  C4_take_value_exactly_once.1
    { tid := 1, pollsLeft := 0, value := MValue.vBackground,
      completed := true, taken := false } rfl rfl

/-- C5: body exhaustion is idempotent: once a body-next task yields the
terminal empty value, every later body-next call on the resulting body
state, after any number of further steps, again yields the terminal empty
value - never an error and never further data. -/
theorem C5_body_exhaustion_idempotent (b : MBody) (tid : Nat)
    (h : (hyper_body_next b tid).1.value = MValue.vBodyChunk none) :
    ∀ (n tid2 : Nat),
      (hyper_body_next (bodyNextState^[n] (hyper_body_next b tid).2) tid2).1.value
        = MValue.vBodyChunk none := by
  intro n tid2
  have hb : b.chunks = [] := by
    cases hc : b.chunks with
    | nil => rfl
    | cons c rest => simp [hyper_body_next, bodyNextValue, hc] at h
  have hv : bodyNextValue b = (none, b) := by
    simp [bodyNextValue, hb]
  have h2 : (hyper_body_next b tid).2 = b := by
    simp [hyper_body_next, hv]
  have h3 : bodyNextState b = b := by
    simp [bodyNextState, hv]
  rw [h2, Function.iterate_fixed h3 n]
  simp [hyper_body_next, hv]

/-- C5 witness: an empty body yields the terminal value now and after two
more steps. -/
theorem C5_body_exhaustion_idempotent_witness :
    (hyper_body_next { chunks := [] } 0).1.value = MValue.vBodyChunk none ∧
    (hyper_body_next (bodyNextState^[2] (hyper_body_next { chunks := [] } 0).2) 1).1.value
      = MValue.vBodyChunk none :=
  ⟨rfl, C5_body_exhaustion_idempotent { chunks := [] } 0 rfl 2 1⟩

/-- C2: at most one send is in flight per ClientConnection: a
`hyper_clientconn_send` issued while the connection is still `Sending` is
rejected with a sequencing error (delivered as an Error-tagged task) and
the connection state - including the in-flight request/response exchange -
is left unchanged. -/
theorem C2_second_send_sequencing_error (c : MClientConn) (req : MRequest) (tid : Nat)
    (h : c.phase = ConnPhase.sending) :
    (hyper_clientconn_send c req tid).1.value = MValue.vError MErr.sequencing ∧
    (hyper_clientconn_send c req tid).1.tag = SpecTaskTag.Error ∧
    (hyper_clientconn_send c req tid).2 = c := by
  simp [hyper_clientconn_send, h, MTask.tag]

/-- C2 witness: a concrete connection in `Sending` rejects a second send and
is unchanged. -/
theorem C2_second_send_sequencing_error_witness :
    (hyper_clientconn_send
        { phase := ConnPhase.sending,
          inflight := some { method := [71], uri := [47], headers := [], bodyId := none },
          reply := MReply.ok { status := 200, headers := [], bodyId := none } }
        { method := [72], uri := [47], headers := [], bodyId := none } 7).1.value
      = MValue.vError MErr.sequencing ∧
    (hyper_clientconn_send
        { phase := ConnPhase.sending,
          inflight := some { method := [71], uri := [47], headers := [], bodyId := none },
          reply := MReply.ok { status := 200, headers := [], bodyId := none } }
        { method := [72], uri := [47], headers := [], bodyId := none } 7).1.tag
      = SpecTaskTag.Error ∧
    (hyper_clientconn_send
        { phase := ConnPhase.sending,
          inflight := some { method := [71], uri := [47], headers := [], bodyId := none },
          reply := MReply.ok { status := 200, headers := [], bodyId := none } }
        { method := [72], uri := [47], headers := [], bodyId := none } 7).2
      = { phase := ConnPhase.sending,
          inflight := some { method := [71], uri := [47], headers := [], bodyId := none },
          reply := MReply.ok { status := 200, headers := [], bodyId := none } } :=
  C2_second_send_sequencing_error
    { phase := ConnPhase.sending,
      inflight := some { method := [71], uri := [47], headers := [], bodyId := none },
      reply := MReply.ok { status := 200, headers := [], bodyId := none } }
    { method := [72], uri := [47], headers := [], bodyId := none } 7 rfl

/-- C3: one `hyper_waker_wake` call causes at most one pending-to-ready
transition: it never touches the stored tasks, it extends the ready set by
at most the one woken identity (and only if that identity was not already
ready), a wake for an already-completed task is a no-op, and well-formedness
of the executor is preserved. -/
theorem C3_wake_at_most_one_transition (e : MExecutor) (w : MWaker) :
    ((∃ t, findTask e.tasks w.tid = some t ∧ t.completed = true) →
      hyper_waker_wake e w = e) ∧
    (hyper_waker_wake e w).tasks = e.tasks ∧
    ((hyper_waker_wake e w).readyIds = e.readyIds ∨
      (w.tid ∉ e.readyIds ∧
        (hyper_waker_wake e w).readyIds = e.readyIds ++ [w.tid])) ∧
    (execWF e → execWF (hyper_waker_wake e w)) := by
  cases hf : findTask e.tasks w.tid with
  | none => simp [hyper_waker_wake, hf]
  | some t =>
    by_cases hc : t.completed = true
    · simp [hyper_waker_wake, hf, hc]
    · by_cases hm : w.tid ∈ e.readyIds
      · simp [hyper_waker_wake, hf, hc, hm]
      · have hwe : hyper_waker_wake e w = { e with readyIds := e.readyIds ++ [w.tid] } := by
          simp [hyper_waker_wake, hf, hc, hm]
        refine ⟨?_, ?_, ?_, ?_⟩
        · rintro ⟨t2, hf2, hc2⟩
          injection hf2 with hf2
          rw [← hf2] at hc2
          exact absurd hc2 hc
        · rw [hwe]
        · right
          exact ⟨hm, by rw [hwe]⟩
        · rintro ⟨h1, h2, h3⟩
          rw [hwe]
          refine ⟨h1, ?_, ?_⟩
          · rw [List.nodup_append]
            refine ⟨h2, List.nodup_singleton _, ?_⟩
            intro a ha hb
            rw [List.mem_singleton] at hb
            subst hb
            exact hm ha
          · intro id hid
            rw [List.mem_append] at hid
            cases hid with
            | inl hin => exact h3 id hin
            | inr hin =>
              rw [List.mem_singleton] at hin
              subst hin
              obtain ⟨hmem, htid⟩ := findTask_some hf
              exact ⟨t, hmem, htid⟩

/-- C3 witness: waking a concrete already-completed task leaves the executor
unchanged. -/
theorem C3_wake_at_most_one_transition_witness :
    hyper_waker_wake
        { tasks := [{ tid := 5, pollsLeft := 0, value := MValue.vBackground,
                      completed := true, taken := false }], readyIds := [] }
        { tid := 5 }
      = { tasks := [{ tid := 5, pollsLeft := 0, value := MValue.vBackground,
                      completed := true, taken := false }], readyIds := [] } :=
  (C3_wake_at_most_one_transition
      { tasks := [{ tid := 5, pollsLeft := 0, value := MValue.vBackground,
                    completed := true, taken := false }], readyIds := [] }
      { tid := 5 }).1
    ⟨{ tid := 5, pollsLeft := 0, value := MValue.vBackground,
       completed := true, taken := false }, by decide, rfl⟩

/-- C7 counterexample: an executor holding one ready but still-pending task
(one pending poll remaining) is polled: tasks are marked ready, yet the
poll returns the none-ready sentinel instead of a completed task - refuting
the claim that whenever some task is ready the poll returns a task that has
reached completion. -/
theorem C7_poll_counterexample :
    ({ tasks := [{ tid := 0, pollsLeft := 1, value := MValue.vBackground,
                   completed := false, taken := false }],
       readyIds := [0] } : MExecutor).readyIds ≠ [] ∧
    (hyper_executor_poll
        { tasks := [{ tid := 0, pollsLeft := 1, value := MValue.vBackground,
                      completed := false, taken := false }],
          readyIds := [0] }).1 = none := by
  constructor
  · decide
  · decide

/-- C7 (amended): `hyper_executor_poll` never blocks: with no ready tasks
(including an executor holding zero tasks) it returns the none-ready
sentinel and leaves the executor unchanged; and whenever it does return a
task, that task has reached completion (when every advanced task stays
pending it returns the sentinel instead). -/
theorem C7_poll_never_blocks (e : MExecutor) :
    (e.readyIds = [] →
      (hyper_executor_poll e).1 = none ∧ (hyper_executor_poll e).2 = e) ∧
    (∀ t : MTask, (hyper_executor_poll e).1 = some t → t.completed = true) := by
  constructor
  · intro hr
    have h1 : pollLoop e.readyIds e.tasks = (none, e.tasks, []) := by
      rw [hr]
      rfl
    constructor
    · show (pollLoop e.readyIds e.tasks).1 = none
      rw [h1]
    · show MExecutor.mk (pollLoop e.readyIds e.tasks).2.1 (pollLoop e.readyIds e.tasks).2.2 = e
      rw [h1, ← hr]
  · intro t ht
    have hp : pollLoop e.readyIds e.tasks
        = (some t, (pollLoop e.readyIds e.tasks).2.1, (pollLoop e.readyIds e.tasks).2.2) := by
      rw [← ht]
      rfl
    exact pollLoop_some_completed e.readyIds e.tasks _ t _ hp

/-- C7 witness: polling a concrete executor holding zero tasks returns the
none-ready sentinel and leaves the executor unchanged. -/
theorem C7_poll_never_blocks_witness :
    ({ tasks := [], readyIds := [] } : MExecutor).readyIds = [] ∧
    (hyper_executor_poll { tasks := [], readyIds := [] }).1 = none ∧
    (hyper_executor_poll { tasks := [], readyIds := [] }).2
      = ({ tasks := [], readyIds := [] } : MExecutor) :=
  ⟨rfl, (C7_poll_never_blocks { tasks := [], readyIds := [] }).1 rfl⟩

/-- C9: the asynchronous operations never fail synchronously: handshake,
send and body-next each return a task for every input, the task is still
pending at return (no synchronous failure path exists), and every failure -
a transport that reports the ERROR sentinel during the handshake, or a
fatal exchange outcome on a ready connection - surfaces as that task
completing with the Error result-type tag, carrying only the error kind and
no partial value; a body-next task always carries the BodyChunk tag. -/
theorem C9_async_failures_surface_as_error_tasks :
    (∀ (tr : MIoTransport) (opts : MOptions) (tid : Nat),
      (hyper_clientconn_handshake tr opts tid).completed = false ∧
      (tr.hsErr = true →
        (hyper_clientconn_handshake tr opts tid).tag = SpecTaskTag.Error ∧
        (hyper_clientconn_handshake tr opts tid).value = MValue.vError MErr.transportErr)) ∧
    (∀ (c : MClientConn) (req : MRequest) (tid : Nat),
      (hyper_clientconn_send c req tid).1.completed = false ∧
      (∀ e : MErr, c.phase = ConnPhase.ready → c.reply = MReply.fail e →
        (hyper_clientconn_send c req tid).1.tag = SpecTaskTag.Error ∧
        (hyper_clientconn_send c req tid).1.value = MValue.vError e)) ∧
    (∀ (b : MBody) (tid : Nat),
      (hyper_body_next b tid).1.completed = false ∧
      (hyper_body_next b tid).1.tag = SpecTaskTag.BodyChunk) := by
  refine ⟨?_, ?_, ?_⟩
  · intro tr opts tid
    constructor
    · simp [hyper_clientconn_handshake]
    · intro he
      simp [hyper_clientconn_handshake, he, MTask.tag]
  · intro c req tid
    constructor
    · cases hp : c.phase <;> simp [hyper_clientconn_send, hp]
    · intro e h1 h2
      simp [hyper_clientconn_send, h1, h2, MTask.tag]
  · intro b tid
    cases hb : b.chunks with
    | nil => simp [hyper_body_next, bodyNextValue, hb, MTask.tag]
    | cons c rest => simp [hyper_body_next, bodyNextValue, hb, MTask.tag]

/-- C9 witness: a handshake over a concrete failing transport returns a
pending task whose eventual result is tagged Error with the transport
error value. -/
theorem C9_async_failures_surface_as_error_tasks_witness :
    (hyper_clientconn_handshake
        { hsErr := true, reply := MReply.fail MErr.connClosed }
        { hasExec := true } 3).completed = false ∧
    (hyper_clientconn_handshake
        { hsErr := true, reply := MReply.fail MErr.connClosed }
        { hasExec := true } 3).tag = SpecTaskTag.Error ∧
    (hyper_clientconn_handshake
        { hsErr := true, reply := MReply.fail MErr.connClosed }
        { hasExec := true } 3).value = MValue.vError MErr.transportErr := by
  obtain ⟨h1, h2⟩ := C9_async_failures_surface_as_error_tasks.1
    { hsErr := true, reply := MReply.fail MErr.connClosed } { hasExec := true } 3
  exact ⟨h1, (h2 rfl).1, (h2 rfl).2⟩

/-- C10: after `hyper_response_body` takes ownership of the body of a
response, `hyper_response_free` on that response does not touch the body
store, so a subsequent body-next through the taken body handle yields the
same value and the same body state as it would had the response not been
freed. -/
theorem C10_taken_body_unaffected_by_response_free
    (w : MWorld) (rid bid : Nat) (r : MResponse)
    (hr : assocFind w.responses rid = some r) (hb : r.bodyId = some bid) :
    (hyper_response_body w rid).1 = some bid ∧
    (hyper_response_free (hyper_response_body w rid).2 rid).bodies
      = (hyper_response_body w rid).2.bodies ∧
    (worldBodyNext (hyper_response_free (hyper_response_body w rid).2 rid) bid).1
      = (worldBodyNext (hyper_response_body w rid).2 bid).1 ∧
    (worldBodyNext (hyper_response_free (hyper_response_body w rid).2 rid) bid).2.bodies
      = (worldBodyNext (hyper_response_body w rid).2 bid).2.bodies := by
  have h1 : hyper_response_body w rid
      = (some bid,
         { w with responses := assocUpdate w.responses rid { r with bodyId := none } }) := by
    simp [hyper_response_body, hr, hb]
  have h2 : assocFind (hyper_response_body w rid).2.responses rid
      = some { r with bodyId := none } := by
    rw [h1]
    exact assocFind_update_self w.responses rid r { r with bodyId := none } hr
  have h3 : (hyper_response_free (hyper_response_body w rid).2 rid).bodies
      = (hyper_response_body w rid).2.bodies := by
    simp [hyper_response_free, h2]
  obtain ⟨h4, h5⟩ := worldBodyNext_bodies_congr
    (hyper_response_free (hyper_response_body w rid).2 rid)
    (hyper_response_body w rid).2 bid h3
  exact ⟨by rw [h1], h3, h4, h5⟩

/-- C10 witness: in a concrete store, taking the body and freeing the
response leaves the body store and the next body-next outcome unchanged. -/
theorem C10_taken_body_unaffected_by_response_free_witness :
    assocFind exampleWorld.responses 1 = some exampleResponse ∧
    exampleResponse.bodyId = some 4 ∧
    (hyper_response_body exampleWorld 1).1 = some 4 ∧
    (hyper_response_free (hyper_response_body exampleWorld 1).2 1).bodies
      = (hyper_response_body exampleWorld 1).2.bodies ∧
    (worldBodyNext (hyper_response_free (hyper_response_body exampleWorld 1).2 1) 4).1
      = (worldBodyNext (hyper_response_body exampleWorld 1).2 4).1 ∧
    (worldBodyNext (hyper_response_free (hyper_response_body exampleWorld 1).2 1) 4).2.bodies
      = (worldBodyNext (hyper_response_body exampleWorld 1).2 4).2.bodies := by
  have h := C10_taken_body_unaffected_by_response_free exampleWorld 1 4 exampleResponse
    (by decide) rfl
  exact ⟨by decide, rfl, h.1, h.2.1, h.2.2.1, h.2.2.2⟩
